import Mathlib

/-!
Verification of the x4_get_data extraction scripts.

The development embeds the Python sources shallowly:

* `resolve_placeholders` / `replacer` / `subLoop` / `subTokens` model the
  localization placeholder resolver shared by `get_factions_info.py`
  (lines 56-106) and `map_get_names.py` (lines 102-152);
* `strip_parentheticals` models the final annotation-stripping step
  (the regex substitution on line 104 followed by `str.strip`);
* `load_localization` and `load_localization_wares` model the two
  localization-map loaders (`get_factions_info.py` lines 29-54 and
  `wares_convert.py` lines 29-52, which differ in how an absent payload
  is stored);
* `calculate_price_ranges`, `bound_price` and `pyRound0` model the ware
  price-band computation of `wares_convert.py` (lines 54-77) and the
  rounding performed by the `.0f` format specifier on output; rational
  numbers stand in for Python floats;
* `wareRow` models the per-ware record construction of
  `process_all_wares` (`wares_convert.py` lines 161-190);
* `extract_cluster_sector`, `datasetRow` and `process_mapdefaults` model
  the map-sector extractor of `map_get_names.py` (lines 80-100, 154-223).

Python regular expressions are modelled by explicit left-to-right
scanners over character lists; `\d` is modelled by ASCII digits, `\s`
and `str.strip` by the ASCII whitespace class.  Recursive scanners take
an explicit fuel argument which callers instantiate with the length of
the scanned list, which always suffices because every step consumes at
least one character.
-/

namespace X4

/-- Whitespace characters: the ASCII range of Python's regex class `\s`,
also used by `str.strip()`. -/
def pyIsSpace (c : Char) : Bool :=
  c = ' ' || c = '\t' || c = '\n' || c = '\r' || c = '\x0b' || c = '\x0c'

/-- Python `str.strip()`: drop leading and trailing whitespace. -/
def pyStrip (l : List Char) : List Char :=
  ((l.dropWhile pyIsSpace).reverse.dropWhile pyIsSpace).reverse

/-- `str.strip()` on a `String`. -/
def pyStripStr (s : String) : String :=
  ⟨pyStrip s.data⟩

/-- Longest run of decimal digits at the head of the list, together with
the remainder. -/
def takeDigits (l : List Char) : List Char × List Char :=
  (l.takeWhile Char.isDigit, l.dropWhile Char.isDigit)

/-- Match the token regex (an opening brace, a digit group, a comma, a
second digit group, a closing brace) at the head of the character list.
On success, return the two digit groups and the remainder after the
match.  Both digit groups are maximal nonempty digit runs, which is what
the greedy `\d+` of the source pattern matches. -/
def matchToken (l : List Char) : Option (List Char × List Char × List Char) :=
  match l with
  | '\x7b' :: r0 =>
    match takeDigits r0 with
    | ([], _) => none
    | (d1, ',' :: r1) =>
      match takeDigits r1 with
      | ([], _) => none
      | (d2, '\x7d' :: r2) => some (d1, d2, r2)
      | (_, _) => none
    | (_, _) => none
  | _ => none

/-- One substitution pass of `pattern.sub(replacer, text)` for the token
pattern: scan left to right, replace every non-overlapping match by the
replacer's output (which is not rescanned within the same pass), copy
every other character.  The fuel is instantiated with the length of the
list by every caller. -/
def subTokens (repl : String → String → String) : Nat → List Char → List Char
  | 0, l => l
  | _ + 1, [] => []
  | fuel + 1, c :: cs =>
    match matchToken (c :: cs) with
    | some (d1, d2, rest) => (repl ⟨d1⟩ ⟨d2⟩).data ++ subTokens repl fuel rest
    | none => c :: subTokens repl fuel cs

/-- Does the token pattern match anywhere in the list?  (`pattern.search`
semantics: try every position.) -/
def hasTokens : List Char → Bool
  | [] => false
  | c :: cs => (matchToken (c :: cs)).isSome || hasTokens cs

/-- Match the annotation regex (optional whitespace run, opening
parenthesis, a run of non-closing-parenthesis characters, closing
parenthesis) at the head of the list, returning the remainder after the
match.  Backtracking cannot rescue a failed greedy run here, so the
greedy scan is exact. -/
def matchParen (l : List Char) : Option (List Char) :=
  match l.dropWhile pyIsSpace with
  | '(' :: r1 =>
    match r1.dropWhile (fun c => c != ')') with
    | ')' :: r2 => some r2
    | _ => none
  | _ => none

/-- The substitution pass deleting every annotation match
(`re.sub(pattern, empty, text)` semantics).  Fuel as in `subTokens`. -/
def subParens : Nat → List Char → List Char
  | 0, l => l
  | _ + 1, [] => []
  | fuel + 1, c :: cs =>
    match matchParen (c :: cs) with
    | some rest => subParens fuel rest
    | none => c :: subParens fuel cs

/-- The annotation-stripping step closing every resolver call
(`get_factions_info.py` line 104): delete every parenthesized substring
together with the whitespace before it, then trim the ends. -/
def strip_parentheticals (s : String) : String :=
  ⟨pyStrip (subParens s.data.length s.data)⟩

/-- The nested `replacer` function of `resolve_placeholders`
(`get_factions_info.py` lines 69-90).  `resolveRec` stands for the
recursive call to the resolver at one smaller depth; the processed-keys
list is threaded as an explicit parameter because the Python list
mutation (append before the recursive call, pop after) is balanced in
every branch. -/
def replacer (resolveRec : String → List String → String)
    (name_map : List (String × String)) (processed_keys : List String)
    (d1 d2 : String) : String :=
  let key := d1 ++ "_" ++ d2
  if key ∈ processed_keys then
    "\x7b" ++ d1 ++ "," ++ d2 ++ "\x7d"
  else
    let replacement := (List.lookup key name_map).getD "Unknown"
    if replacement = "Unknown" then "Unknown"
    else resolveRec replacement (processed_keys ++ [key])

/-- The `for depth in range(max_depth)` loop of the resolver
(`get_factions_info.py` lines 93-99): apply substitution passes until a
pass changes nothing or the pass budget is exhausted. -/
def subLoop (repl : String → String → String) : Nat → String → String
  | 0, cur => cur
  | n + 1, cur =>
    let nw : String := ⟨subTokens repl cur.data.length cur.data⟩
    if nw = cur then cur else subLoop repl n nw

/-- `resolve_placeholders(text, name_map, processed_keys, max_depth)`
(`get_factions_info.py` lines 56-106, identical in `map_get_names.py`):
run up to `max_depth` substitution passes, where each replaced token is
resolved recursively at depth `max_depth - 1`, then strip parenthetical
annotations.  The Python call with the default arguments is
`resolve_placeholders text name_map [] 10`. -/
def resolve_placeholders (text : String) (name_map : List (String × String))
    (processed_keys : List String) (max_depth : Nat) : String :=
  match max_depth with
  | 0 => strip_parentheticals text
  | d + 1 =>
    let repl := replacer (fun t ks => resolve_placeholders t name_map ks d)
      name_map processed_keys
    strip_parentheticals (subLoop repl (d + 1) text)

/-! ### The resolver in state-passing form

To state that a resolver call returns with the localization map unchanged,
the same algorithm is repeated with the map threaded through every
operation that touches it; `dictGet` is the embedding of `name_map.get`,
the only map operation the resolver performs. -/

/-- `name_map.get(key, default)` in state-passing form: the result together
with the map after the operation (a read leaves the map as it was). -/
def dictGet (name_map : List (String × String)) (key default : String) :
    String × List (String × String) :=
  ((List.lookup key name_map).getD default, name_map)

/-- `replacer` with the map threaded. -/
def replacerS
    (resolveRec : String → List String → List (String × String) →
      String × List (String × String))
    (processed_keys : List String) (d1 d2 : String)
    (name_map : List (String × String)) : String × List (String × String) :=
  let key := d1 ++ "_" ++ d2
  if key ∈ processed_keys then
    ("\x7b" ++ d1 ++ "," ++ d2 ++ "\x7d", name_map)
  else
    let r := dictGet name_map key "Unknown"
    if r.1 = "Unknown" then ("Unknown", r.2)
    else resolveRec r.1 (processed_keys ++ [key]) r.2

/-- One substitution pass with the map threaded through every replacement. -/
def subTokensS
    (repl : String → String → List (String × String) →
      String × List (String × String)) :
    Nat → List Char → List (String × String) →
      List Char × List (String × String)
  | 0, l, nm => (l, nm)
  | _ + 1, [], nm => ([], nm)
  | fuel + 1, c :: cs, nm =>
    match matchToken (c :: cs) with
    | some (d1, d2, rest) =>
      let p := repl ⟨d1⟩ ⟨d2⟩ nm
      let q := subTokensS repl fuel rest p.2
      (p.1.data ++ q.1, q.2)
    | none =>
      let q := subTokensS repl fuel cs nm
      (c :: q.1, q.2)

/-- The pass loop with the map threaded. -/
def subLoopS
    (repl : String → String → List (String × String) →
      String × List (String × String)) :
    Nat → String → List (String × String) → String × List (String × String)
  | 0, cur, nm => (cur, nm)
  | n + 1, cur, nm =>
    let p := subTokensS repl cur.data.length cur.data nm
    let nw : String := ⟨p.1⟩
    if nw = cur then (cur, p.2) else subLoopS repl n nw p.2

/-- `resolve_placeholders` with the map threaded: returns the resolved text
together with the map as it is when the call returns. -/
def resolve_placeholdersS (text : String) (name_map : List (String × String))
    (processed_keys : List String) (max_depth : Nat) :
    String × List (String × String) :=
  match max_depth with
  | 0 => (strip_parentheticals text, name_map)
  | d + 1 =>
    let repl := replacerS (fun t ks nm => resolve_placeholdersS t nm ks d)
      processed_keys
    let p := subLoopS repl (d + 1) text name_map
    (strip_parentheticals p.1, p.2)

/-! ### The localization map loaders -/

/-- A `t` element of the localization catalog: an optional `id` attribute
and an optional text payload. -/
structure TextEntry where
  id : Option String
  text : Option String

/-- A `page` element: an optional `id` attribute and the `t` elements found
below it, in document order. -/
structure Page where
  id : Option String
  entries : List TextEntry

/-- Python truthiness of an optional string attribute: an absent attribute
and the empty string are both falsy. -/
def pyTruthy : Option String → Bool
  | none => false
  | some s => s != ""

/-- Python `x if x else empty-string` on an optional string. -/
def pyOrEmpty (o : Option String) : String :=
  if pyTruthy o then o.getD "" else ""

/-- Python dict assignment `d[k] = v`: overwrite the binding in place when
the key exists, otherwise append it, preserving insertion order. -/
def dictInsert {α : Type} : List (String × α) → String → α → List (String × α)
  | [], k, v => [(k, v)]
  | (k0, v0) :: rest, k, v =>
    if k0 = k then (k, v) :: rest else (k0, v0) :: dictInsert rest k v

/-- `load_localization` of `get_factions_info.py` (lines 29-54), success
path: every page with a truthy id contributes one binding per `t` entry
with a truthy id, under the key `page-id _ t-id`; the stored value is the
payload, or the empty string when the payload is absent (or empty). -/
def load_localization (pages : List Page) : List (String × String) :=
  pages.foldl
    (fun nm page =>
      if pyTruthy page.id then
        page.entries.foldl
          (fun nm2 t =>
            if pyTruthy t.id then
              dictInsert nm2 (page.id.getD "" ++ "_" ++ t.id.getD "")
                (pyOrEmpty t.text)
            else nm2)
          nm
      else nm)
    []

/-- `load_localization` of `wares_convert.py` (lines 29-52): the identical
page/entry walk, except that line 48 stores the raw `t.text`, so an absent
payload is stored as an absent value, not as the empty string. -/
def load_localization_wares (pages : List Page) : List (String × Option String) :=
  pages.foldl
    (fun nm page =>
      if pyTruthy page.id then
        page.entries.foldl
          (fun nm2 t =>
            if pyTruthy t.id then
              dictInsert nm2 (page.id.getD "" ++ "_" ++ t.id.getD "") t.text
            else nm2)
          nm
      else nm)
    []

/-! ### Number and reference parsing -/

/-- Value of a digit run (`int` applied to a string of decimal digits). -/
def digitsToNat (l : List Char) : Nat :=
  l.foldl (fun acc c => acc * 10 + (c.toNat - '0'.toNat)) 0

/-- Python `int()` on a decimal string: surrounding whitespace and an
optional sign around a nonempty digit run.  (Digit-grouping underscores,
which `int()` also accepts, are not modelled.) -/
def pyInt (s : String) : Option Int :=
  match pyStrip s.data with
  | '+' :: r =>
    if r ≠ [] ∧ r.all Char.isDigit then some (digitsToNat r : Int) else none
  | '-' :: r =>
    if r ≠ [] ∧ r.all Char.isDigit then some (-(digitsToNat r : Int)) else none
  | r =>
    if r ≠ [] ∧ r.all Char.isDigit then some (digitsToNat r : Int) else none

/-- Is the character an opening or closing brace?  (The strip set of
`name_ref.strip` in `parse_name_reference`.) -/
def isBraceChar (c : Char) : Bool :=
  c = '\x7b' || c = '\x7d'

/-- `str.strip` with the two brace characters as the strip set. -/
def pyStripBraces (s : String) : String :=
  ⟨((s.data.dropWhile isBraceChar).reverse.dropWhile isBraceChar).reverse⟩

/-- Worker for splitting on a single separator character: `acc` carries
the piece read so far, reversed. -/
def splitOnCharAux (sep : Char) : List Char → List Char → List (List Char)
  | [], acc => [acc.reverse]
  | c :: cs, acc =>
    if c = sep then acc.reverse :: splitOnCharAux sep cs []
    else splitOnCharAux sep cs (c :: acc)

/-- Python `str.split` with the comma separator: the pieces between the
commas, including empty ones. -/
def pySplitComma (s : String) : List String :=
  (splitOnCharAux ',' s.data []).map (fun l => ⟨l⟩)

/-- `parse_name_reference` (`wares_convert.py` lines 18-27, identical in the
other scripts): strip braces, split on the comma, parse both parts as
integers and rebuild the combined key; any failure yields `none`. -/
def parse_name_reference (name_ref : Option String) : Option String :=
  match name_ref with
  | none => none
  | some s =>
    if s = "" then none
    else
      match pySplitComma (pyStripBraces s) with
      | [a, b] =>
        match pyInt a, pyInt b with
        | some page_id, some t_id =>
          some (toString page_id ++ "_" ++ toString t_id)
        | _, _ => none
      | _ => none

/-- Python `str.split()` with no argument: split on whitespace runs,
dropping empty pieces.  Fuel as in `subTokens`. -/
def pySplitAux : Nat → List Char → List String
  | 0, _ => []
  | _ + 1, [] => []
  | fuel + 1, c :: cs =>
    if pyIsSpace c then pySplitAux fuel cs
    else
      ⟨c :: cs.takeWhile (fun x => !pyIsSpace x)⟩ ::
        pySplitAux fuel (cs.dropWhile (fun x => !pyIsSpace x))

/-- `str.split()` on a `String`. -/
def pySplitWs (s : String) : List String :=
  pySplitAux s.data.length s.data

/-- Unsigned decimal part of a float literal: `digits`, `digits.digits`,
`digits.` or `.digits`. -/
def pyFloatCore (sign : ℚ) (r : List Char) : Option ℚ :=
  let intPart := r.takeWhile Char.isDigit
  match r.dropWhile Char.isDigit with
  | [] =>
    if intPart ≠ [] then some (sign * (digitsToNat intPart : ℚ)) else none
  | '.' :: fr =>
    if fr.all Char.isDigit ∧ (intPart ≠ [] ∨ fr ≠ []) then
      some (sign * ((digitsToNat intPart : ℚ) +
        (digitsToNat fr : ℚ) / (10 : ℚ) ^ fr.length))
    else none
  | _ => none

/-- The decimal subset of Python `float()`: optional sign, integer digits,
optional fractional part.  (The prices in the data are plain decimals;
exponents, infinities and nan are not modelled.)  Rationals stand in for
binary floats. -/
def pyFloatDec (s : String) : Option ℚ :=
  match pyStrip s.data with
  | '+' :: r => pyFloatCore 1 r
  | '-' :: r => pyFloatCore (-1) r
  | r => pyFloatCore 1 r

/-! ### The ware extractor -/

/-- `VALID_TRANSPORT` (`wares_convert.py` line 13). -/
def VALID_TRANSPORT : List String :=
  ["container", "liquid", "solid"]

/-- The nested `price` element of a ware: optional `min`/`max` attributes. -/
structure PriceElem where
  min : Option String
  max : Option String

/-- A `ware` element: the attributes and child read by the extractor. -/
structure Ware where
  tags : Option String
  transport : Option String
  name : Option String
  price : Option PriceElem

/-- `bound_price` (`wares_convert.py` lines 61-66): clamp a price into the
`min`/`max` interval. -/
def bound_price (min_price max_price price : ℚ) : ℚ :=
  if price < min_price then min_price
  else if price > max_price then max_price
  else price

/-- The record returned by `calculate_price_ranges`. -/
structure PriceRanges where
  avg : ℚ
  p30_min : ℚ
  p30_max : ℚ
  p50_min : ℚ
  p50_max : ℚ
  p70_min : ℚ
  p70_max : ℚ

/-- `calculate_price_ranges` (`wares_convert.py` lines 54-77), with Python
floats modelled as exact rationals: intervals around the average, scaled by
30, 50 and 70 percent of the half range and clamped into the price
interval. -/
def calculate_price_ranges (min_price max_price : ℚ) : PriceRanges :=
  let avg_price := (min_price + max_price) / 2
  let half_range := (max_price - min_price) / 2
  { avg := avg_price
    p30_min := bound_price min_price max_price (avg_price - 30 / 100 * half_range)
    p30_max := bound_price min_price max_price (avg_price + 30 / 100 * half_range)
    p50_min := bound_price min_price max_price (avg_price - 50 / 100 * half_range)
    p50_max := bound_price min_price max_price (avg_price + 50 / 100 * half_range)
    p70_min := bound_price min_price max_price (avg_price - 70 / 100 * half_range)
    p70_max := bound_price min_price max_price (avg_price + 70 / 100 * half_range) }

/-- Round half to even: the rounding the `.0f` format specifier applies to
the seven numeric cells when the row is written. -/
def pyRound0 (q : ℚ) : ℤ :=
  if Int.fract q < 1 / 2 then ⌊q⌋
  else if 1 / 2 < Int.fract q then ⌊q⌋ + 1
  else if ⌊q⌋ % 2 = 0 then ⌊q⌋ else ⌊q⌋ + 1

/-- `name_map.get(key, unknown-default)` for the wares map, whose stored
values are raw payloads that may be absent. -/
def dictGetOpt (name_map : List (String × Option String)) (key : String) :
    Option String :=
  match List.lookup key name_map with
  | some v => v
  | none => some "Unknown"

/-- One output row of `trade_wares_with_prices.csv`.  The numeric cells
hold the rounded integers that the `.0f` format prints. -/
structure WareRow where
  name : Option String
  min : String
  max : String
  avg : Int
  p30_min : Int
  p30_max : Int
  p50_min : Int
  p50_max : Int
  p70_min : Int
  p70_max : Int
  transport : String
  source : String

/-- The per-ware body of `process_all_wares` (`wares_convert.py` lines
161-190): skip module-tagged wares and invalid transports; parse the name
reference; require a price element, a parsed reference and truthy
`min`/`max` attributes; the name cell is the raw map lookup of the
reference (line 173), and the price cells come from
`calculate_price_ranges`.  Returns the row, or `none` when the ware
produces no row. -/
def wareRow (name_map : List (String × Option String)) (source : String)
    (w : Ware) : Option WareRow :=
  if "module" ∈ pySplitWs (w.tags.getD "") then none
  else
    match w.transport with
    | none => none
    | some transport =>
      if transport ∉ VALID_TRANSPORT then none
      else
        match parse_name_reference w.name, w.price with
        | some name_ref, some price =>
          let name := dictGetOpt name_map name_ref
          match price.min, price.max with
          | some min_price, some max_price =>
            if min_price ≠ "" ∧ max_price ≠ "" then
              match pyFloatDec min_price, pyFloatDec max_price with
              | some mn, some mx =>
                let r := calculate_price_ranges mn mx
                some ⟨name, min_price, max_price, pyRound0 r.avg,
                  pyRound0 r.p30_min, pyRound0 r.p30_max,
                  pyRound0 r.p50_min, pyRound0 r.p50_max,
                  pyRound0 r.p70_min, pyRound0 r.p70_max,
                  transport, source⟩
              | _, _ => none
            else none
          | _, _ => none
        | _, _ => none

/-! ### The map-sector extractor -/

/-- `re.findall` for the digit-run pattern: the maximal digit runs of the
list, left to right.  Fuel as in `subTokens`. -/
def findall_digits : Nat → List Char → List String
  | 0, _ => []
  | _ + 1, [] => []
  | fuel + 1, c :: cs =>
    if c.isDigit then
      ⟨c :: cs.takeWhile Char.isDigit⟩ ::
        findall_digits fuel (cs.dropWhile Char.isDigit)
    else findall_digits fuel cs

/-- `extract_cluster_sector` (`map_get_names.py` lines 80-100): the first
digit run is the cluster id and the second the sector id; one run means a
cluster-level record, none means the unknown default record. -/
def extract_cluster_sector (macroStr : String) : Nat × Nat × String :=
  match findall_digits macroStr.data.length macroStr.data with
  | n1 :: n2 :: _ => (digitsToNat n1.data, digitsToNat n2.data, "sector")
  | [n1] => (digitsToNat n1.data, 0, "cluster")
  | [] => (0, 0, "unknown")

/-- The `identification` child of a dataset: the optional `name`
attribute. -/
structure Identification where
  name : Option String

/-- A `dataset` element of `mapdefaults.xml`: the optional `macro`
attribute and the optional `identification` descendant.  (`macro` is a
reserved word in Lean, hence the field name.) -/
structure Dataset where
  macroAttr : Option String
  identification : Option Identification

/-- One collected row of `process_mapdefaults`, in the tuple order of
line 202: (cluster id, sector id, type, macro, name, source). -/
structure MapRow where
  cluster_id : Nat
  sector_id : Nat
  entry_type : String
  macroStr : String
  name : String
  source : String

/-- The comparison by which `process_mapdefaults` sorts
(`all_rows.sort(key ...)`, line 210): lexicographic order on the pair
(cluster id, sector id). -/
def rowLe (a b : MapRow) : Bool :=
  decide (a.cluster_id < b.cluster_id) ||
    (decide (a.cluster_id = b.cluster_id) && decide (a.sector_id ≤ b.sector_id))

/-- The per-dataset body of `process_mapdefaults` (`map_get_names.py`
lines 172-203): skip a falsy macro, strip it, apply the exclusion
predicates, extract cluster/sector/type, require an identification with a
truthy name, and resolve the looked-up name through the resolver.  The
exclusion patterns are modelled as the predicates
`re.match(pattern, macro)` denotes. -/
def datasetRow (name_map : List (String × String))
    (exclude_patterns : List (String → Bool)) (source : String)
    (ds : Dataset) : Option MapRow :=
  match ds.macroAttr with
  | none => none
  | some m0 =>
    if m0 = "" then none
    else
      let macroStr := pyStripStr m0
      if exclude_patterns.any (fun p => p macroStr) then none
      else
        match extract_cluster_sector macroStr with
        | (cluster_id, sector_id, entry_type) =>
          match ds.identification with
          | none => none
          | some ident =>
            match ident.name with
            | none => none
            | some na0 =>
              if na0 = "" then none
              else
                let name_attr := pyStripStr na0
                let name :=
                  match parse_name_reference (some name_attr) with
                  | none => "Unknown"
                  | some ref =>
                    resolve_placeholders ((List.lookup ref name_map).getD "Unknown")
                      name_map [] 10
                some ⟨cluster_id, sector_id, entry_type, macroStr, name, source⟩

/-- The row collection and final sort of `process_mapdefaults`
(`map_get_names.py` lines 154-223): rows accumulated per source file in
document order, then sorted by (cluster id, sector id). -/
def process_mapdefaults (files : List (String × List Dataset))
    (name_map : List (String × String))
    (exclude_patterns : List (String → Bool)) : List MapRow :=
  let all_rows := files.foldl
    (fun acc sf => acc ++ sf.2.filterMap (datasetRow name_map exclude_patterns sf.1))
    []
  all_rows.mergeSort rowLe

/-! ### A concrete ware scenario

A localization map binding `1_1` to the token for `1_2` and `1_2` to
`Hello`, and a tradable ware whose name reference is the token for `1_1`:
the two maps are the same bindings once as the wares loader stores them
and once as the resolver consumes them. -/

/-- The wares-loader form of the scenario map. -/
def wares_map_cx : List (String × Option String) :=
  [("1_1", some "\x7b1,2\x7d"), ("1_2", some "Hello")]

/-- The resolver form of the scenario map. -/
def wares_loc_cx : List (String × String) :=
  [("1_1", "\x7b1,2\x7d"), ("1_2", "Hello")]

/-- A container ware named by the token for `1_1`, priced 10 to 20. -/
def ware_cx : Ware :=
  ⟨none, some "container", some "\x7b1,1\x7d", some ⟨some "10", some "20"⟩⟩

/-- The row the ware extractor emits for `ware_cx`: the name cell is the
raw looked-up value, and the numeric cells are the rounded band values of
the parsed prices. -/
def ware_row_cx : WareRow :=
  ⟨some "\x7b1,2\x7d", "10", "20",
   pyRound0 (calculate_price_ranges (1 * ((10 : Nat) : ℚ)) (1 * ((20 : Nat) : ℚ))).avg,
   pyRound0 (calculate_price_ranges (1 * ((10 : Nat) : ℚ)) (1 * ((20 : Nat) : ℚ))).p30_min,
   pyRound0 (calculate_price_ranges (1 * ((10 : Nat) : ℚ)) (1 * ((20 : Nat) : ℚ))).p30_max,
   pyRound0 (calculate_price_ranges (1 * ((10 : Nat) : ℚ)) (1 * ((20 : Nat) : ℚ))).p50_min,
   pyRound0 (calculate_price_ranges (1 * ((10 : Nat) : ℚ)) (1 * ((20 : Nat) : ℚ))).p50_max,
   pyRound0 (calculate_price_ranges (1 * ((10 : Nat) : ℚ)) (1 * ((20 : Nat) : ℚ))).p70_min,
   pyRound0 (calculate_price_ranges (1 * ((10 : Nat) : ℚ)) (1 * ((20 : Nat) : ℚ))).p70_max,
   "container", "original"⟩

end X4

/-! ## Theorems -/

namespace X4

/-! ### Resolver lemmas -/

/-- A substitution pass leaves a text without token matches unchanged. -/
theorem subTokens_of_hasTokens_eq_false (repl : String → String → String) :
    ∀ (fuel : Nat) (l : List Char), hasTokens l = false → subTokens repl fuel l = l := by
  intro fuel
  induction fuel with
  | zero => intro l _; rfl
  | succ n ih =>
    intro l h
    cases l with
    | nil => rfl
    | cons c cs =>
      simp only [hasTokens, Bool.or_eq_false_iff] at h
      obtain ⟨h1, h2⟩ := h
      have hnone : matchToken (c :: cs) = none := by
        cases hm : matchToken (c :: cs) with
        | none => rfl
        | some v => rw [hm] at h1; simp at h1
      simp only [subTokens, hnone]
      rw [ih cs h2]

/-- The pass loop is the identity on a text without token matches. -/
theorem subLoop_of_hasTokens_eq_false (repl : String → String → String)
    (n : Nat) (text : String) (h : hasTokens text.data = false) :
    subLoop repl n text = text := by
  cases n with
  | zero => rfl
  | succ m =>
    simp only [subLoop]
    rw [subTokens_of_hasTokens_eq_false repl _ _ h]
    simp

/-- On a text without token matches, the resolver only strips
parenthetical annotations, at every depth and for every path. -/
theorem resolve_placeholders_of_no_tokens
    (d : Nat) (text : String) (nm : List (String × String)) (ks : List String)
    (h : hasTokens text.data = false) :
    resolve_placeholders text nm ks d = strip_parentheticals text := by
  cases d with
  | zero => rfl
  | succ m =>
    show strip_parentheticals (subLoop _ (m + 1) text) = strip_parentheticals text
    rw [subLoop_of_hasTokens_eq_false _ _ _ h]

/-! ### Claim theorems C1 - C4 -/

/-- C1: on every input without a reference token, `resolve_placeholders`
with the default arguments returns exactly `strip_parentheticals` of the
input, for every map; in particular the parenthetical annotation of
`Name (extra info)` is stripped to `Name` for every map. -/
theorem resolve_no_token_is_strip :
    (∀ (text : String) (nm : List (String × String)),
        hasTokens text.data = false →
        resolve_placeholders text nm [] 10 = strip_parentheticals text) ∧
    (∀ nm : List (String × String),
        resolve_placeholders "Name (extra info)" nm [] 10 = "Name") := by
  constructor
  · intro text nm h
    exact resolve_placeholders_of_no_tokens 10 text nm [] h
  · intro nm
    rw [resolve_placeholders_of_no_tokens 10 _ nm [] (by decide)]
    decide

/-- Witness for C1 at a concrete text and map. -/
theorem resolve_no_token_is_strip_witness :
    resolve_placeholders "Argon Federation (fallback)" [("1_1", "v")] [] 10
      = strip_parentheticals "Argon Federation (fallback)" :=
  resolve_no_token_is_strip.1 "Argon Federation (fallback)" [("1_1", "v")] (by decide)

/-- C2: on the self-cyclic map binding key `1_1` to the token text itself,
the resolver (a total function: it never loops and never runs more than
the ten budgeted passes) returns the literal token text unexpanded; and in
general, whenever a token's key is already on the active resolution path,
the replacer leaves the literal token text in place, whatever the
recursive resolver would do. -/
theorem cycle_token_left_unexpanded :
    resolve_placeholders "\x7b1,1\x7d" [("1_1", "\x7b1,1\x7d")] [] 10 = "\x7b1,1\x7d" ∧
    (∀ (f : String → List String → String) (nm : List (String × String))
        (ks : List String) (d1 d2 : String),
        (d1 ++ "_" ++ d2) ∈ ks →
        replacer f nm ks d1 d2 = "\x7b" ++ d1 ++ "," ++ d2 ++ "\x7d") := by
  constructor
  · decide
  · intro f nm ks d1 d2 h
    simp only [replacer, if_pos h]

/-- Witness for C2's general clause at a concrete path. -/
theorem cycle_token_left_unexpanded_witness :
    replacer (fun t _ => t) [] ["1_1"] "1" "1" = "\x7b" ++ "1" ++ "," ++ "1" ++ "\x7d" :=
  cycle_token_left_unexpanded.2 (fun t _ => t) [] ["1_1"] "1" "1" (by decide)

/-- C3: a token whose looked-up value itself contains a token is resolved
recursively before substitution: with `1_1` bound to the token for `1_2`
and `1_2` bound to `Hello`, resolving the token for `1_1` yields
`Hello`. -/
theorem nested_token_resolved :
    resolve_placeholders "\x7b1,1\x7d" [("1_1", "\x7b1,2\x7d"), ("1_2", "Hello")] [] 10
      = "Hello" := by
  decide

/-- C4: a token whose key is absent from the map is replaced by the
literal string `Unknown`: the full resolver maps the token for `9_9` to
`Unknown` whenever the map has no binding for `9_9`, and in general the
replacer returns `Unknown` for every absent key without invoking the
recursive resolver. -/
theorem missing_key_unknown :
    (∀ nm : List (String × String), List.lookup "9_9" nm = none →
        resolve_placeholders "\x7b9,9\x7d" nm [] 10 = "Unknown") ∧
    (∀ (f : String → List String → String) (nm : List (String × String))
        (ks : List String) (d1 d2 : String),
        (d1 ++ "_" ++ d2) ∉ ks → List.lookup (d1 ++ "_" ++ d2) nm = none →
        replacer f nm ks d1 d2 = "Unknown") := by
  constructor
  · intro nm h
    have hrep : replacer (fun t ks => resolve_placeholders t nm ks 9) nm [] "9" "9"
        = "Unknown" := by
      simp only [replacer]
      rw [show ("9" ++ "_" ++ "9" : String) = "9_9" from rfl]
      simp [h]
    have hsub : subTokens (replacer (fun t ks => resolve_placeholders t nm ks 9) nm [])
        5 ("\x7b9,9\x7d".data)
        = (replacer (fun t ks => resolve_placeholders t nm ks 9) nm [] "9" "9").data
            ++ [] := rfl
    have hnew : (⟨subTokens (replacer (fun t ks => resolve_placeholders t nm ks 9) nm [])
        5 ("\x7b9,9\x7d".data)⟩ : String) = "Unknown" := by
      rw [hsub, hrep]; rfl
    have h1 : subLoop (replacer (fun t ks => resolve_placeholders t nm ks 9) nm [])
        10 "\x7b9,9\x7d"
        = if (⟨subTokens (replacer (fun t ks => resolve_placeholders t nm ks 9) nm [])
              5 ("\x7b9,9\x7d".data)⟩ : String) = "\x7b9,9\x7d"
          then "\x7b9,9\x7d"
          else subLoop (replacer (fun t ks => resolve_placeholders t nm ks 9) nm []) 9
            ⟨subTokens (replacer (fun t ks => resolve_placeholders t nm ks 9) nm [])
              5 ("\x7b9,9\x7d".data)⟩ := rfl
    have h0 : resolve_placeholders "\x7b9,9\x7d" nm [] 10
        = strip_parentheticals
            (subLoop (replacer (fun t ks => resolve_placeholders t nm ks 9) nm [])
              10 "\x7b9,9\x7d") := rfl
    rw [h0, h1, hnew, if_neg (by decide : ¬("Unknown" : String) = "\x7b9,9\x7d"),
      subLoop_of_hasTokens_eq_false _ 9 "Unknown" (by decide)]
    decide
  · intro f nm ks d1 d2 hk hl
    simp only [replacer, if_neg hk, hl]
    simp

/-- Witness for C4 at the empty map. -/
theorem missing_key_unknown_witness :
    resolve_placeholders "\x7b9,9\x7d" [] [] 10 = "Unknown" :=
  missing_key_unknown.1 [] (by decide)

end X4

namespace X4

/-! ### The state-passing resolver agrees with the plain one -/

/-- A threaded substitution pass with a map-preserving replacer returns the
plain pass's text and the untouched map. -/
theorem subTokensS_eq
    (replS : String → String → List (String × String) →
      String × List (String × String))
    (repl : String → String → String) (nm : List (String × String))
    (H : ∀ a b, replS a b nm = (repl a b, nm)) :
    ∀ (fuel : Nat) (l : List Char),
      subTokensS replS fuel l nm = (subTokens repl fuel l, nm) := by
  intro fuel
  induction fuel with
  | zero => intro l; rfl
  | succ n ih =>
    intro l
    cases l with
    | nil => rfl
    | cons c cs =>
      simp only [subTokensS, subTokens]
      cases hm : matchToken (c :: cs) with
      | none => simp only [hm, ih cs]
      | some v =>
        obtain ⟨d1, d2, rest⟩ := v
        simp only [hm, H ⟨d1⟩ ⟨d2⟩, ih rest]

/-- The threaded pass loop with a map-preserving replacer returns the plain
loop's text and the untouched map. -/
theorem subLoopS_eq
    (replS : String → String → List (String × String) →
      String × List (String × String))
    (repl : String → String → String) (nm : List (String × String))
    (H : ∀ a b, replS a b nm = (repl a b, nm)) :
    ∀ (n : Nat) (cur : String),
      subLoopS replS n cur nm = (subLoop repl n cur, nm) := by
  intro n
  induction n with
  | zero => intro cur; rfl
  | succ m ih =>
    intro cur
    simp only [subLoopS, subLoop, subTokensS_eq replS repl nm H]
    split_ifs with hc
    · rfl
    · exact ih _

/-- The threaded resolver returns the plain resolver's text together with
the untouched map, at every depth, text, map and path. -/
theorem resolve_placeholdersS_eq :
    ∀ (d : Nat) (text : String) (nm : List (String × String)) (ks : List String),
      resolve_placeholdersS text nm ks d = (resolve_placeholders text nm ks d, nm) := by
  intro d
  induction d with
  | zero => intro text nm ks; rfl
  | succ m ih =>
    intro text nm ks
    have H : ∀ a b,
        replacerS (fun t ks2 nm2 => resolve_placeholdersS t nm2 ks2 m) ks a b nm
          = (replacer (fun t ks2 => resolve_placeholders t nm ks2 m) nm ks a b, nm) := by
      intro a b
      simp only [replacerS, replacer, dictGet]
      by_cases hk : (a ++ "_" ++ b) ∈ ks
      · simp [hk]
      · by_cases hu : (List.lookup (a ++ "_" ++ b) nm).getD "Unknown" = "Unknown"
        · simp [hk, hu]
        · simp [hk, hu, ih]
    have h0 : resolve_placeholdersS text nm ks (m + 1)
        = (strip_parentheticals
            (subLoopS (replacerS (fun t ks2 nm2 => resolve_placeholdersS t nm2 ks2 m) ks)
              (m + 1) text nm).1,
           (subLoopS (replacerS (fun t ks2 nm2 => resolve_placeholdersS t nm2 ks2 m) ks)
              (m + 1) text nm).2) := rfl
    rw [h0,
      subLoopS_eq _ (replacer (fun t ks2 => resolve_placeholders t nm ks2 m) nm ks) nm H
        (m + 1) text]
    rfl

/-! ### Claim theorem C9 -/

/-- C9: a resolver call only reads the localization map: in the
state-passing embedding, the map component returned by a top-level call is
exactly the map passed in, and the text component is the plain resolver's
result. -/
theorem resolver_map_frame :
    ∀ (text : String) (nm : List (String × String)),
      (resolve_placeholdersS text nm [] 10).2 = nm ∧
      (resolve_placeholdersS text nm [] 10).1 = resolve_placeholders text nm [] 10 := by
  intro text nm
  rw [resolve_placeholdersS_eq 10 text nm []]
  exact ⟨rfl, rfl⟩

end X4

namespace X4

/-! ### Claim C6: the loaders (corrected) -/

/-- C6 counterexample: in the `wares_convert.py` loader, a text entry with
an identifier but an absent payload is bound to the raw absent payload
(line 48 stores `t.text` itself), not to the empty string the claim
requires. -/
theorem wares_loader_absent_payload_not_empty :
    List.lookup "1_1" (load_localization_wares [⟨some "1", [⟨some "1", none⟩]⟩])
      = some none ∧
    (none : Option String) ≠ some "" := by
  exact ⟨by decide, by decide⟩

/-- C6 amended: both loaders bind the key built from the page and entry
identifiers, and both skip pages and entries whose identifier is missing;
the `get_factions_info.py` loader stores the payload with the empty string
for an absent (or empty) payload, while the `wares_convert.py` loader
stores the raw payload, leaving an absent payload absent. -/
theorem loaders_binding (pid tid : String) (txt : Option String)
    (hp : pid ≠ "") (ht : tid ≠ "") :
    List.lookup (pid ++ "_" ++ tid)
        (load_localization [⟨some pid, [⟨some tid, txt⟩]⟩]) = some (pyOrEmpty txt) ∧
    List.lookup (pid ++ "_" ++ tid)
        (load_localization_wares [⟨some pid, [⟨some tid, txt⟩]⟩]) = some txt ∧
    (∀ entries, load_localization [⟨none, entries⟩] = []) ∧
    (∀ entries, load_localization_wares [⟨none, entries⟩] = []) ∧
    (∀ txt2, load_localization [⟨some pid, [⟨none, txt2⟩]⟩] = []) ∧
    (∀ txt2, load_localization_wares [⟨some pid, [⟨none, txt2⟩]⟩] = []) := by
  refine ⟨?_, ?_, ?_, ?_, ?_, ?_⟩
  · simp [load_localization, pyTruthy, hp, ht, dictInsert, List.lookup]
  · simp [load_localization_wares, pyTruthy, hp, ht, dictInsert, List.lookup]
  · intro entries; simp [load_localization, pyTruthy]
  · intro entries; simp [load_localization_wares, pyTruthy]
  · intro txt2; simp [load_localization, pyTruthy, hp]
  · intro txt2; simp [load_localization_wares, pyTruthy, hp]

/-- Witness for the amended C6 at concrete identifiers and payload. -/
theorem loaders_binding_witness :
    List.lookup ("20101" ++ "_" ++ "2001")
        (load_localization [⟨some "20101", [⟨some "2001", some "Hi"⟩]⟩])
      = some (pyOrEmpty (some "Hi")) ∧
    List.lookup ("20101" ++ "_" ++ "2001")
        (load_localization_wares [⟨some "20101", [⟨some "2001", some "Hi"⟩]⟩])
      = some (some "Hi") ∧
    (∀ entries, load_localization [⟨none, entries⟩] = []) ∧
    (∀ entries, load_localization_wares [⟨none, entries⟩] = []) ∧
    (∀ txt2, load_localization [⟨some "20101", [⟨none, txt2⟩]⟩] = []) ∧
    (∀ txt2, load_localization_wares [⟨some "20101", [⟨none, txt2⟩]⟩] = []) :=
  loaders_binding "20101" "2001" (some "Hi") (by decide) (by decide)

/-! ### Claim C7: the price bands -/

/-- Every value `pyRound0` returns is a nearest integer of its argument. -/
theorem pyRound0_nearest (q : ℚ) : |(pyRound0 q : ℚ) - q| ≤ 1 / 2 := by
  have h0 := Int.fract_nonneg q
  have h1 := Int.fract_lt_one q
  have hf : (⌊q⌋ : ℚ) = q - Int.fract q := (Int.self_sub_fract q).symm
  unfold pyRound0
  split_ifs with hlt hgt hev
  · rw [abs_le]; constructor <;> rw [hf] <;> linarith
  · rw [abs_le]; push_cast; constructor <;> rw [hf] <;> linarith
  · have hq : Int.fract q = 1 / 2 := le_antisymm (not_lt.mp hgt) (not_lt.mp hlt)
    rw [abs_le]; constructor <;> rw [hf, hq] <;> linarith
  · have hq : Int.fract q = 1 / 2 := le_antisymm (not_lt.mp hgt) (not_lt.mp hlt)
    rw [abs_le]; push_cast; constructor <;> rw [hf, hq] <;> linarith

/-- `bound_price` lands in the price interval whenever it is nonempty. -/
theorem bound_price_mem (mn mx x : ℚ) (h : mn ≤ mx) :
    mn ≤ bound_price mn mx x ∧ bound_price mn mx x ≤ mx := by
  unfold bound_price
  split_ifs with h1 h2
  · exact ⟨le_refl mn, h⟩
  · exact ⟨h, le_refl mx⟩
  · exact ⟨not_lt.mp h1, not_lt.mp h2⟩

/-- C7: the price bands are the intervals `avg plus-or-minus p percent of
the half range` for p in 30, 50, 70, each end clamped into the price
interval, and every reported cell (the average and the six band ends) is
printed as a nearest integer of its value (rounding halves to even). -/
theorem price_bands_clamped_and_rounded (mn mx : ℚ) (h : mn ≤ mx) :
    ((calculate_price_ranges mn mx).avg = (mn + mx) / 2 ∧
     (calculate_price_ranges mn mx).p30_min
        = bound_price mn mx ((mn + mx) / 2 - 30 / 100 * ((mx - mn) / 2)) ∧
     (calculate_price_ranges mn mx).p30_max
        = bound_price mn mx ((mn + mx) / 2 + 30 / 100 * ((mx - mn) / 2)) ∧
     (calculate_price_ranges mn mx).p50_min
        = bound_price mn mx ((mn + mx) / 2 - 50 / 100 * ((mx - mn) / 2)) ∧
     (calculate_price_ranges mn mx).p50_max
        = bound_price mn mx ((mn + mx) / 2 + 50 / 100 * ((mx - mn) / 2)) ∧
     (calculate_price_ranges mn mx).p70_min
        = bound_price mn mx ((mn + mx) / 2 - 70 / 100 * ((mx - mn) / 2)) ∧
     (calculate_price_ranges mn mx).p70_max
        = bound_price mn mx ((mn + mx) / 2 + 70 / 100 * ((mx - mn) / 2))) ∧
    (∀ v ∈ [(calculate_price_ranges mn mx).p30_min, (calculate_price_ranges mn mx).p30_max,
            (calculate_price_ranges mn mx).p50_min, (calculate_price_ranges mn mx).p50_max,
            (calculate_price_ranges mn mx).p70_min, (calculate_price_ranges mn mx).p70_max],
        mn ≤ v ∧ v ≤ mx) ∧
    (∀ v ∈ (calculate_price_ranges mn mx).avg ::
           [(calculate_price_ranges mn mx).p30_min, (calculate_price_ranges mn mx).p30_max,
            (calculate_price_ranges mn mx).p50_min, (calculate_price_ranges mn mx).p50_max,
            (calculate_price_ranges mn mx).p70_min, (calculate_price_ranges mn mx).p70_max],
        |(pyRound0 v : ℚ) - v| ≤ 1 / 2) := by
  refine ⟨⟨rfl, rfl, rfl, rfl, rfl, rfl, rfl⟩, ?_, ?_⟩
  · intro v hv
    simp only [List.mem_cons, List.not_mem_nil, or_false] at hv
    rcases hv with rfl | rfl | rfl | rfl | rfl | rfl <;>
      exact bound_price_mem mn mx _ h
  · intro v _
    exact pyRound0_nearest v

/-- Witness for C7 at the price interval 10 to 20 of the claim: the 30
percent band is 13.5 to 16.5 and is printed as 14 and 16 (half rounds to
even), both nearest integers. -/
theorem price_bands_clamped_and_rounded_witness :
    (∀ v ∈ [(calculate_price_ranges 10 20).p30_min, (calculate_price_ranges 10 20).p30_max,
            (calculate_price_ranges 10 20).p50_min, (calculate_price_ranges 10 20).p50_max,
            (calculate_price_ranges 10 20).p70_min, (calculate_price_ranges 10 20).p70_max],
        (10 : ℚ) ≤ v ∧ v ≤ 20) ∧
    (calculate_price_ranges 10 20).p30_min = 27 / 2 ∧
    (calculate_price_ranges 10 20).p30_max = 33 / 2 ∧
    pyRound0 (calculate_price_ranges 10 20).avg = 15 ∧
    pyRound0 (calculate_price_ranges 10 20).p30_min = 14 ∧
    pyRound0 (calculate_price_ranges 10 20).p30_max = 16 := by
  have h30min : (calculate_price_ranges 10 20).p30_min = 27 / 2 := by
    show bound_price 10 20 ((10 + 20) / 2 - 30 / 100 * ((20 - 10) / 2)) = 27 / 2
    unfold bound_price
    norm_num
  have h30max : (calculate_price_ranges 10 20).p30_max = 33 / 2 := by
    show bound_price 10 20 ((10 + 20) / 2 + 30 / 100 * ((20 - 10) / 2)) = 33 / 2
    unfold bound_price
    norm_num
  have havg : (calculate_price_ranges 10 20).avg = 15 := by
    show ((10 : ℚ) + 20) / 2 = 15
    norm_num
  refine ⟨(price_bands_clamped_and_rounded 10 20 (by norm_num)).2.1,
    h30min, h30max, ?_, ?_, ?_⟩
  · rw [havg]
    have hf : (⌊(15 : ℚ)⌋ : ℤ) = 15 := by norm_num [Int.floor_eq_iff]
    unfold pyRound0
    rw [Int.fract, hf]
    norm_num
  · rw [h30min]
    have hf : (⌊(27 / 2 : ℚ)⌋ : ℤ) = 13 := by norm_num [Int.floor_eq_iff]
    unfold pyRound0
    rw [Int.fract, hf]
    norm_num
  · rw [h30max]
    have hf : (⌊(33 / 2 : ℚ)⌋ : ℤ) = 16 := by norm_num [Int.floor_eq_iff]
    unfold pyRound0
    rw [Int.fract, hf]
    norm_num

/-! ### Claim C8: the map-sector rows are sorted -/

/-- C8: for every input, every two consecutive rows of the map-sector
extractor's output are in ascending lexicographic order of
(cluster id, sector id). -/
theorem mapdefaults_rows_sorted (files : List (String × List Dataset))
    (nm : List (String × String)) (pats : List (String → Bool)) :
    List.Chain' (fun a b => rowLe a b = true)
      (process_mapdefaults files nm pats) := by
  have htrans : ∀ a b c : MapRow,
      rowLe a b = true → rowLe b c = true → rowLe a c = true := by
    intro a b c hab hbc
    simp only [rowLe, Bool.or_eq_true, Bool.and_eq_true, decide_eq_true_eq] at *
    omega
  have htotal : ∀ a b : MapRow, (rowLe a b || rowLe b a) = true := by
    intro a b
    simp only [rowLe, Bool.or_eq_true, Bool.and_eq_true, decide_eq_true_eq]
    omega
  exact (List.sorted_mergeSort htrans htotal _).chain'

end X4

namespace X4

/-! ### Claim C5: the ware name cell (corrected) -/

/-- C5 counterexample: for `ware_cx` the emitted name cell is the raw map
lookup of the parsed reference (the token text bound to `1_1`), while the
resolver applied to the same reference yields `Hello`; the two differ, so
the name cell is not the resolver's output. -/
theorem ware_name_not_resolver_output :
    (wareRow wares_map_cx "original" ware_cx).map WareRow.name
      = some (some "\x7b1,2\x7d") ∧
    resolve_placeholders "\x7b1,1\x7d" wares_loc_cx [] 10 = "Hello" ∧
    (some "\x7b1,2\x7d" : Option String) ≠ some "Hello" := by
  have hrow : wareRow wares_map_cx "original" ware_cx = some ware_row_cx := rfl
  exact ⟨by rw [hrow]; rfl, by decide, by decide⟩

/-- C5 amended: the name cell of every emitted ware row is the raw
localization lookup (with the unknown default) of the ware's parsed name
reference; the resolver is not invoked, so nested tokens are not expanded
and parentheticals are not stripped. -/
theorem ware_name_is_raw_lookup (nm : List (String × Option String)) (src : String)
    (w : Ware) (r : WareRow) (h : wareRow nm src w = some r) :
    ∃ ref, parse_name_reference w.name = some ref ∧ r.name = dictGetOpt nm ref := by
  unfold wareRow at h
  split at h
  · exact absurd h (by simp)
  · split at h
    · exact absurd h (by simp)
    · split at h
      · exact absurd h (by simp)
      · split at h
        · split at h
          · split at h
            · split at h
              · rw [Option.some_inj] at h
                subst h
                exact ⟨_, by assumption, rfl⟩
              · exact absurd h (by simp)
            · exact absurd h (by simp)
          · exact absurd h (by simp)
        · exact absurd h (by simp)

/-- Witness for the amended C5 at the concrete scenario. -/
theorem ware_name_is_raw_lookup_witness :
    ∃ ref, parse_name_reference ware_cx.name = some ref ∧
      ware_row_cx.name = dictGetOpt wares_map_cx ref :=
  ware_name_is_raw_lookup wares_map_cx "original" ware_cx ware_row_cx rfl

/-! ### Claim C10: digit-free macros -/

/-- A list without digit characters has no digit runs. -/
theorem findall_digits_eq_nil (fuel : Nat) :
    ∀ l : List Char, (∀ c ∈ l, c.isDigit = false) → findall_digits fuel l = [] := by
  induction fuel with
  | zero => intro l _; rfl
  | succ n ih =>
    intro l h
    cases l with
    | nil => rfl
    | cons c cs =>
      have hc : c.isDigit = false := h c (by simp)
      simp only [findall_digits, hc]
      simp only [Bool.false_eq_true, if_false]
      exact ih cs (fun x hx => h x (by simp [hx]))

/-- A macro without digit characters extracts the default record. -/
theorem extract_cluster_sector_of_no_digits (m : String)
    (h : ∀ c ∈ m.data, c.isDigit = false) :
    extract_cluster_sector m = (0, 0, "unknown") := by
  unfold extract_cluster_sector
  rw [findall_digits_eq_nil _ _ h]

/-- C10: a dataset whose macro contains no run of digits is not skipped
for that reason: `extract_cluster_sector` returns cluster 0, sector 0 and
type `unknown` for every digit-free macro, the dataset still produces a
row carrying those defaults whenever the conditions demanded of every
dataset hold (a truthy macro, no exclusion match, an identification with
a truthy name), and such a row sorts strictly before every row with a
positive cluster id. -/
theorem digitless_macro_default_row :
    (∀ m : String, (∀ c ∈ m.data, c.isDigit = false) →
        extract_cluster_sector m = (0, 0, "unknown")) ∧
    (∀ (nm : List (String × String)) (pats : List (String → Bool)) (src : String)
        (ds : Dataset) (m0 : String) (ident : Identification) (na : String),
        ds.macroAttr = some m0 → m0 ≠ "" →
        pats.any (fun p => p (pyStripStr m0)) = false →
        (∀ c ∈ (pyStripStr m0).data, c.isDigit = false) →
        ds.identification = some ident → ident.name = some na → na ≠ "" →
        datasetRow nm pats src ds
          = some ⟨0, 0, "unknown", pyStripStr m0,
              (match parse_name_reference (some (pyStripStr na)) with
               | none => "Unknown"
               | some ref =>
                 resolve_placeholders ((List.lookup ref nm).getD "Unknown") nm [] 10),
              src⟩) ∧
    (∀ a b : MapRow, a.cluster_id = 0 → 0 < b.cluster_id →
        rowLe a b = true ∧ rowLe b a = false) := by
  refine ⟨?_, ?_, ?_⟩
  · intro m h
    exact extract_cluster_sector_of_no_digits m h
  · intro nm pats src ds m0 ident na hm hne hpat hdig hid hna hnae
    simp only [datasetRow, hm, hid, hna]
    rw [if_neg hne, if_neg (by simp [hpat]),
      extract_cluster_sector_of_no_digits _ hdig, if_neg hnae]
  · intro a b ha hb
    constructor
    · simp only [rowLe, Bool.or_eq_true, Bool.and_eq_true, decide_eq_true_eq]
      omega
    · cases hr : rowLe b a
      · rfl
      · exfalso
        simp only [rowLe, Bool.or_eq_true, Bool.and_eq_true, decide_eq_true_eq] at hr
        omega

/-- Witness for C10 at a concrete digit-free dataset. -/
theorem digitless_macro_default_row_witness :
    datasetRow [] [] "original" ⟨some "abc", some ⟨some "\x7b1,2\x7d"⟩⟩
      = some ⟨0, 0, "unknown", pyStripStr "abc",
          (match parse_name_reference (some (pyStripStr "\x7b1,2\x7d")) with
           | none => "Unknown"
           | some ref =>
             resolve_placeholders
               ((List.lookup ref ([] : List (String × String))).getD "Unknown")
               [] [] 10),
          "original"⟩ :=
  digitless_macro_default_row.2.1 [] [] "original" ⟨some "abc", some ⟨some "\x7b1,2\x7d"⟩⟩
    "abc" ⟨some "\x7b1,2\x7d"⟩ "\x7b1,2\x7d" rfl (by decide) rfl (by decide) rfl rfl
    (by decide)

end X4
